import Mathlib

/-!
Shallow embedding of the weighted round-robin task scheduler
(src/common/task/weightedRoundRobinTaskScheduler.go).

Tasks are identified by natural numbers; a priority is a Go int, modelled
as `Int`.  A Go buffered channel is modelled by its buffer (a FIFO list)
together with its capacity; the per-priority task channels `taskChs` are a
list of buffers with the common capacity `queueSize`.  The coalescing
notification channel `notifyCh` (capacity 1) is modelled by the number of
pending notifications.  The one-shot `shutdownCh` is a boolean flag.
The external Processor is modelled by a function `proc : Nat → Bool`
saying whether `processor.Submit` accepts a given task.
-/

namespace WRR

/-- The daemon status values `common.DaemonStatusInitialized / Started /
Stopped` used by the atomic CAS in `Start` and `Stop`. -/
inductive DaemonStatus where
  | initial
  | started
  | stopped
deriving DecidableEq

/-- State of `weightedRoundRobinTaskSchedulerImpl` relevant to the claims.
`procStarts`, `procStops` and `dispatcherSpawns` count the side effects of
`Start`/`Stop` (calls to `processor.Start()`, `processor.Stop()` and
spawns of the dispatcher goroutine). -/
structure SchedulerCore where
  status : DaemonStatus
  numQueues : Nat
  weights : List Int
  queueSize : Int
  taskChs : List (List Nat)
  shutdown : Bool
  notify : Nat
  procStarts : Nat
  procStops : Nat
  dispatcherSpawns : Nat
deriving DecidableEq

/-- Options struct `WeightedRoundRobinTaskSchedulerOptions` (the
`RetryPolicy` field is passed through opaquely and omitted). -/
structure WeightedRoundRobinTaskSchedulerOptions where
  Weights : List Int
  QueueSize : Int
  WorkerCount : Int
deriving DecidableEq

def constructionErrMsg : String := "weight is not specified in the scheduler option"

/-- Outcome of running the constructor: the returned scheduler, the
returned construction error, or the Go runtime fault
(makechan: size out of range) raised by `make(chan PriorityTask, n)`
when `n` is negative. -/
inductive NewSchedulerResult where
  | ok (s : SchedulerCore)
  | constructionError (msg : String)
  | makeChanFault
deriving DecidableEq

/-- Whether construction returned a scheduler. -/
def NewSchedulerResult.isOk : NewSchedulerResult → Bool
  | NewSchedulerResult.ok _ => true
  | NewSchedulerResult.constructionError _ => false
  | NewSchedulerResult.makeChanFault => false

/-- Embedding of `NewWeightedRoundRobinTaskScheduler`: the only validation
in the source is `len(options.Weights) == 0`.  With nonempty weights the
queue-making loop runs at least once, and
`make(chan PriorityTask, options.QueueSize)` faults at run time when
`options.QueueSize` is negative.  Otherwise construction succeeds:
`numQueues` is the number of weights and one task channel of capacity
`options.QueueSize` is made per priority. -/
def NewWeightedRoundRobinTaskScheduler
    (options : WeightedRoundRobinTaskSchedulerOptions) :
    NewSchedulerResult :=
  if options.Weights.length = 0 then
    NewSchedulerResult.constructionError constructionErrMsg
  else if options.QueueSize < 0 then
    NewSchedulerResult.makeChanFault
  else
    NewSchedulerResult.ok
      { status := DaemonStatus.initial
        numQueues := options.Weights.length
        weights := options.Weights
        queueSize := options.QueueSize
        taskChs := List.replicate options.Weights.length []
        shutdown := false
        notify := 0
        procStarts := 0
        procStops := 0
        dispatcherSpawns := 0 }

/-- Embedding of `Start`: the CAS from Initialized to Started guards the
side effects (starting the processor and spawning the dispatcher); a failed
CAS returns with no effect. -/
def Start (w : SchedulerCore) : SchedulerCore :=
  if w.status = DaemonStatus.initial then
    { w with
        status := DaemonStatus.started
        procStarts := w.procStarts + 1
        dispatcherSpawns := w.dispatcherSpawns + 1 }
  else w

/-- Embedding of `Stop`: the CAS from Started to Stopped guards closing
`shutdownCh` and stopping the processor; a failed CAS returns with no
effect. -/
def Stop (w : SchedulerCore) : SchedulerCore :=
  if w.status = DaemonStatus.started then
    { w with
        status := DaemonStatus.stopped
        shutdown := true
        procStops := w.procStops + 1 }
  else w

/-- Result of one `Submit` call.  `indexOutOfRange` is the Go runtime
fault raised by evaluating `w.taskChs[priority]` at a negative index;
`blocked` marks the execution where the caller is suspended in the select
(queue full, shutdown not fired). -/
inductive SubmitResult where
  | ok
  | invalidPriority
  | closed
  | indexOutOfRange
  | blocked
deriving DecidableEq

/-- Embedding of `Submit`.  The validation is exactly the code line
`priority >= w.numQueues`; a negative priority then faults on the channel
index.  The select between sending on `taskChs[priority]` and receiving
from the closed `shutdownCh` is resolved by the oracle `chooseSend` when
both cases are ready (Go picks uniformly at random among ready cases).  On
a successful send the coalescing notification post is the inner select
with a `default` branch: it increments `notify` only when no notification
is pending. -/
def Submit (chooseSend : Bool) (w : SchedulerCore) (priority : Int)
    (task : Nat) : SubmitResult × SchedulerCore :=
  if (w.numQueues : Int) ≤ priority then
    (SubmitResult.invalidPriority, w)
  else if priority < 0 then
    (SubmitResult.indexOutOfRange, w)
  else if (((w.taskChs.getD priority.toNat []).length : Int) < w.queueSize ∧
      (w.shutdown = false ∨ chooseSend = true)) then
    (SubmitResult.ok,
      { w with
          taskChs := w.taskChs.set priority.toNat
            ((w.taskChs.getD priority.toNat []) ++ [task])
          notify := if w.notify < 1 then w.notify + 1 else w.notify })
  else if w.shutdown then
    (SubmitResult.closed, w)
  else
    (SubmitResult.blocked, w)

/-- A lifecycle call, for sequences of `Start`/`Stop` invocations. -/
inductive LifecycleAction where
  | start
  | stop
deriving DecidableEq

/-- Run a sequence of lifecycle calls. -/
def runActions : SchedulerCore → List LifecycleAction → SchedulerCore
  | w, [] => w
  | w, LifecycleAction.start :: rest => runActions (Start w) rest
  | w, LifecycleAction.stop :: rest => runActions (Stop w) rest

/-- Fold a list of `Submit` calls (select oracle, priority, task id);
the boolean result records whether every call returned `ok`. -/
def submitMany : SchedulerCore → List (Bool × Int × Nat) → SchedulerCore × Bool
  | w, [] => (w, true)
  | w, (c, p, t) :: rest =>
      let r := Submit c w p t
      let s := submitMany r.2 rest
      (s.1, decide (r.1 = SubmitResult.ok) && s.2)

/-- Observable events of the dispatcher loop: a forward of a task to
`processor.Submit` together with the processor verdict, and an
invocation of the task method `Nack()`. -/
inductive Event where
  | submit (t : Nat) (accepted : Bool)
  | nack (t : Nat)
deriving DecidableEq

/-- The events one dequeued task produces: it is forwarded to
`processor.Submit`, and on rejection the rejection is logged and `Nack()`
invoked. -/
def evFor (proc : Nat → Bool) (t : Nat) : List Event :=
  if proc t then [Event.submit t true]
  else [Event.submit t false, Event.nack t]

/-- The inner per-priority loop `for i := 0; i < Weights[priority]; i++`
of the dispatcher, with shutdown not fired.  The `default: break` of the
source breaks only the select, so an empty queue consumes the remaining
weight slots as no-op attempts. -/
def popLoop (proc : Nat → Bool) : Nat → List Nat → List Event × List Nat
  | 0, q => ([], q)
  | n + 1, [] => popLoop proc n []
  | n + 1, t :: rest =>
      let r := popLoop proc n rest
      (evFor proc t ++ r.1, r.2)

/-- One full dispatcher round (step 3 of the loop) over the priorities in
ascending order, with shutdown not fired: the weight list and the queue
list are walked in lockstep, which embeds the indexed loop
`for priority := 0; priority < numQueues; priority++` when the two lists
have equal length `numQueues`. -/
def dispatchRound (proc : Nat → Bool) :
    List Int → List (List Nat) → List Event × List (List Nat)
  | [], qs => ([], qs)
  | _ :: _, [] => ([], [])
  | w :: ws, q :: rest =>
      let a := popLoop proc w.toNat q
      let b := dispatchRound proc ws rest
      (a.1 ++ b.1, a.2 :: b.2)

/-- Iterate the dispatcher round `k` times (the outer `for` loop of
`dispatcher`, restricted to executions where shutdown never fires). -/
def dispatchRounds (proc : Nat → Bool) (ws : List Int) :
    Nat → List (List Nat) → List Event × List (List Nat)
  | 0, qs => ([], qs)
  | k + 1, qs =>
      let a := dispatchRound proc ws qs
      let b := dispatchRounds proc ws k a.2
      (a.1 ++ b.1, b.2)

/-- Short-circuiting variant of the per-priority loop: on the first empty
pop the remaining weight slots for that priority are abandoned. -/
def popShort (proc : Nat → Bool) : Nat → List Nat → List Event × List Nat
  | 0, q => ([], q)
  | _ + 1, [] => ([], [])
  | n + 1, t :: rest =>
      let r := popShort proc n rest
      (evFor proc t ++ r.1, r.2)

/-- Dispatcher round built on the short-circuiting per-priority loop. -/
def dispatchRoundShort (proc : Nat → Bool) :
    List Int → List (List Nat) → List Event × List (List Nat)
  | [], qs => ([], qs)
  | _ :: _, [] => ([], [])
  | w :: ws, q :: rest =>
      let a := popShort proc w.toNat q
      let b := dispatchRoundShort proc ws rest
      (a.1 ++ b.1, a.2 :: b.2)

/-- Per-priority loop of a round during which the shutdown signal fires:
`k` counts the pop attempts executed before the select resolves to the
`<-shutdownCh` case, at which point the dispatcher returns mid-round.
Returns the events, the final queue, the remaining attempt budget and
whether the dispatcher returned. -/
def popLoopStop (proc : Nat → Bool) :
    Nat → Nat → List Nat → (List Event × List Nat) × Nat × Bool
  | 0, k, q => (([], q), k, false)
  | _ + 1, 0, q => (([], q), 0, true)
  | n + 1, k + 1, [] => popLoopStop proc n k []
  | n + 1, k + 1, t :: rest =>
      let r := popLoopStop proc n k rest
      ((evFor proc t ++ r.1.1, r.1.2), r.2)

/-- Dispatcher round in which the shutdown case is selected at the
`k`-th pop attempt (if the round reaches it): the dispatcher returns
immediately, leaving every queue as it is at that moment. -/
def dispatchRoundStop (proc : Nat → Bool) (k : Nat) :
    List Int → List (List Nat) → (List Event × List (List Nat)) × Nat × Bool
  | [], qs => (([], qs), k, false)
  | _ :: _, [] => (([], []), k, false)
  | w :: ws, q :: rest =>
      let a := popLoopStop proc w.toNat k q
      if a.2.2 then
        ((a.1.1, a.1.2 :: rest), a.2.1, true)
      else
        let b := dispatchRoundStop proc a.2.1 ws rest
        ((a.1.1 ++ b.1.1, a.1.2 :: b.1.2), b.2)

/-- The tasks one round dequeues: the first `W[i]` entries of each queue,
in ascending priority order. -/
def dispatchedTasks (ws : List Int) (qs : List (List Nat)) : List Nat :=
  (List.zipWith (fun (w : Int) q => q.take w.toNat) ws qs).flatten

/-- Position of a status along the lifecycle
Initialized, Started, Stopped. -/
def statusRank : DaemonStatus → Nat
  | DaemonStatus.initial => 0
  | DaemonStatus.started => 1
  | DaemonStatus.stopped => 2

/-- Reachability invariant tying the status to the lifecycle side-effect
counters and to the shutdown flag. -/
def lifecycleInv (w : SchedulerCore) : Prop :=
  w.dispatcherSpawns = w.procStarts ∧
  ((w.status = DaemonStatus.initial ∧ w.procStarts = 0 ∧ w.procStops = 0 ∧
      w.shutdown = false) ∨
   (w.status = DaemonStatus.started ∧ w.procStarts = 1 ∧ w.procStops = 0 ∧
      w.shutdown = false) ∨
   (w.status = DaemonStatus.stopped ∧ w.procStarts = 1 ∧ w.procStops = 1 ∧
      w.shutdown = true))

/-- A freshly constructed two-queue scheduler after `Start`: the state
reached from `NewWeightedRoundRobinTaskScheduler ⟨[1, 1], 2, 1⟩` by one
`Start` call. -/
def coreStarted : SchedulerCore :=
  { status := DaemonStatus.started
    numQueues := 2
    weights := [1, 1]
    queueSize := 2
    taskChs := [[], []]
    shutdown := false
    notify := 0
    procStarts := 1
    procStops := 0
    dispatcherSpawns := 1 }

/-- A one-queue scheduler after `Start` then `Stop`: the state reached
from `NewWeightedRoundRobinTaskScheduler ⟨[1], 1, 1⟩` by `Start` then
`Stop`. -/
def coreStopped : SchedulerCore :=
  { status := DaemonStatus.stopped
    numQueues := 1
    weights := [1]
    queueSize := 1
    taskChs := [[]]
    shutdown := true
    notify := 0
    procStarts := 1
    procStops := 1
    dispatcherSpawns := 1 }

/-- The scheduler record produced by
`NewWeightedRoundRobinTaskScheduler ⟨[1], 1, 1⟩`. -/
def coreInit : SchedulerCore :=
  { status := DaemonStatus.initial
    numQueues := 1
    weights := [1]
    queueSize := 1
    taskChs := [[]]
    shutdown := false
    notify := 0
    procStarts := 0
    procStops := 0
    dispatcherSpawns := 0 }

/-! ### Helper lemmas -/

theorem take_min_length {α : Type} (n : Nat) (q : List α) :
    q.take (min n q.length) = q.take n := by
  rcases Nat.le_total n q.length with h | h
  · rw [Nat.min_eq_left h]
  · rw [Nat.min_eq_right h, List.take_length, List.take_of_length_le h]

theorem drop_min_length {α : Type} (n : Nat) (q : List α) :
    q.drop (min n q.length) = q.drop n := by
  rcases Nat.le_total n q.length with h | h
  · rw [Nat.min_eq_left h]
  · rw [Nat.min_eq_right h, List.drop_length, List.drop_eq_nil_of_le h]

theorem popLoop_eq (proc : Nat → Bool) (n : Nat) (q : List Nat) :
    popLoop proc n q = ((q.take n).flatMap (evFor proc), q.drop n) := by
  induction n generalizing q with
  | zero => simp [popLoop]
  | succ n ih =>
    match q with
    | [] => simp [popLoop, ih]
    | t :: rest => simp [popLoop, ih]

theorem popShort_eq_popLoop (proc : Nat → Bool) (n : Nat) (q : List Nat) :
    popShort proc n q = popLoop proc n q := by
  induction n generalizing q with
  | zero => rfl
  | succ n ih =>
    match q with
    | [] => simp [popShort, popLoop_eq]
    | t :: rest => simp [popShort, popLoop, ih]

theorem dispatchRound_fst (proc : Nat → Bool) (ws : List Int)
    (qs : List (List Nat)) :
    (dispatchRound proc ws qs).1 = (dispatchedTasks ws qs).flatMap (evFor proc) := by
  induction ws generalizing qs with
  | nil => simp [dispatchRound, dispatchedTasks]
  | cons w ws ih =>
    match qs with
    | [] => simp [dispatchRound, dispatchedTasks]
    | q :: rest =>
      simp [dispatchRound, dispatchedTasks, popLoop_eq, ih, List.flatMap_append,
        dispatchedTasks]

theorem dispatchRound_snd (proc : Nat → Bool) (ws : List Int)
    (qs : List (List Nat)) (hlen : ws.length = qs.length) :
    (dispatchRound proc ws qs).2 =
      List.zipWith (fun (w : Int) q => q.drop w.toNat) ws qs := by
  induction ws generalizing qs with
  | nil =>
    match qs with
    | [] => rfl
    | q :: rest => simp at hlen
  | cons w ws ih =>
    match qs with
    | [] => simp at hlen
    | q :: rest =>
      simp only [List.length_cons, Nat.succ.injEq] at hlen
      simp [dispatchRound, popLoop_eq, List.zipWith_cons_cons, ih rest hlen]

theorem dispatchRound_snd_indep (proc : Nat → Bool) (ws : List Int)
    (qs : List (List Nat)) :
    (dispatchRound proc ws qs).2 = (dispatchRound (fun _ => true) ws qs).2 := by
  induction ws generalizing qs with
  | nil => rfl
  | cons w ws ih =>
    match qs with
    | [] => rfl
    | q :: rest => simp [dispatchRound, popLoop_eq, ih rest]

theorem dispatchRounds_snd_indep (proc : Nat → Bool) (ws : List Int)
    (k : Nat) (qs : List (List Nat)) :
    (dispatchRounds proc ws k qs).2 = (dispatchRounds (fun _ => true) ws k qs).2 := by
  induction k generalizing qs with
  | zero => rfl
  | succ k ih =>
    simp only [dispatchRounds]
    rw [dispatchRound_snd_indep proc ws qs, ih]

theorem dispatchedTasks_sublist (ws : List Int) (qs : List (List Nat)) :
    (dispatchedTasks ws qs).Sublist qs.flatten := by
  induction ws generalizing qs with
  | nil => simp [dispatchedTasks]
  | cons w ws ih =>
    match qs with
    | [] => simp [dispatchedTasks]
    | q :: rest =>
      simp only [dispatchedTasks, List.zipWith_cons_cons, List.flatten_cons]
      exact List.Sublist.append (List.take_sublist _ _) (ih rest)

theorem count_submit_flatMap (proc : Nat → Bool) (ds : List Nat) (t : Nat)
    (b : Bool) :
    ((ds.flatMap (evFor proc)).count (Event.submit t b)) =
      if proc t = b then ds.count t else 0 := by
  induction ds with
  | nil => simp
  | cons d ds ih =>
    simp only [List.flatMap_cons, List.count_append, ih, evFor]
    by_cases hd : d = t
    · subst hd
      by_cases hp : proc d <;> by_cases hb : b <;>
        simp [hp, hb, List.count_cons] <;> omega
    · have hne : ∀ b1 b2, (Event.submit d b1) ≠ (Event.submit t b2) := by
        intro b1 b2 h
        exact hd (by cases h; rfl)
      by_cases hp : proc d <;>
        simp [hp, List.count_cons, hne, hd, Ne.symm hd]

theorem count_nack_flatMap (proc : Nat → Bool) (ds : List Nat) (t : Nat) :
    ((ds.flatMap (evFor proc)).count (Event.nack t)) =
      if proc t then 0 else ds.count t := by
  induction ds with
  | nil => simp
  | cons d ds ih =>
    simp only [List.flatMap_cons, List.count_append, ih, evFor]
    by_cases hd : d = t
    · subst hd
      by_cases hp : proc d <;> simp [hp, List.count_cons] <;> omega
    · by_cases hp : proc d <;>
        simp [hp, List.count_cons, hd, Ne.symm hd]

theorem popLoopStop_eq (proc : Nat → Bool) (n k : Nat) (q : List Nat) :
    popLoopStop proc n k q =
      (((q.take (min n k)).flatMap (evFor proc), q.drop (min n k)),
        k - n, decide (k < n)) := by
  induction n generalizing k q with
  | zero => simp [popLoopStop]
  | succ n ih =>
    match k, q with
    | 0, q => simp [popLoopStop]
    | k + 1, [] =>
      simp [popLoopStop, ih, Nat.succ_min_succ, Nat.succ_sub_succ,
        Nat.succ_lt_succ_iff]
    | k + 1, t :: rest =>
      simp [popLoopStop, ih, Nat.succ_min_succ, Nat.succ_sub_succ,
        Nat.succ_lt_succ_iff]

theorem dispatchRoundStop_trace (proc : Nat → Bool) (ws : List Int)
    (k : Nat) (qs : List (List Nat)) :
    ∃ ds : List Nat,
      (dispatchRoundStop proc k ws qs).1.1 = ds.flatMap (evFor proc) ∧
      qs.flatten.Perm (ds ++ ((dispatchRoundStop proc k ws qs).1.2).flatten) := by
  induction ws generalizing k qs with
  | nil =>
    exact ⟨[], rfl, by simp [dispatchRoundStop]⟩
  | cons w ws ih =>
    match qs with
    | [] => exact ⟨[], rfl, by simp [dispatchRoundStop]⟩
    | q :: rest =>
      simp only [dispatchRoundStop, popLoopStop_eq]
      by_cases hs : k < w.toNat
      · refine ⟨q.take (min w.toNat k), by simp [hs], ?_⟩
        simp only [decide_eq_true_eq, hs, if_true, List.flatten_cons]
        refine List.perm_iff_count.2 (fun a => ?_)
        have hq : List.count a q =
            List.count a (q.take (min w.toNat k)) +
              List.count a (q.drop (min w.toNat k)) := by
          rw [← List.count_append, List.take_append_drop]
        simp only [List.count_append]
        omega
      · obtain ⟨ds, hds, hperm⟩ := ih (k - w.toNat) rest
        refine ⟨q.take (min w.toNat k) ++ ds, ?_, ?_⟩
        · simp [hs, hds, List.flatMap_append]
        · simp only [decide_eq_true_eq, hs, if_false, List.flatten_cons]
          refine List.perm_iff_count.2 (fun a => ?_)
          have hc := hperm.count_eq a
          have hq : List.count a q =
              List.count a (q.take (min w.toNat k)) +
                List.count a (q.drop (min w.toNat k)) := by
            rw [← List.count_append, List.take_append_drop]
          simp only [List.count_append] at hc ⊢
          omega

theorem dispatchRoundStop_suffix (proc : Nat → Bool) (ws : List Int)
    (k : Nat) (qs : List (List Nat)) (hlen : ws.length = qs.length) :
    List.Forall₂ (fun q q1 : List Nat => q1.IsSuffix q) qs
      (dispatchRoundStop proc k ws qs).1.2 := by
  induction ws generalizing k qs with
  | nil =>
    match qs with
    | [] => exact List.Forall₂.nil
    | q :: rest => simp at hlen
  | cons w ws ih =>
    match qs with
    | [] => simp at hlen
    | q :: rest =>
      simp only [List.length_cons, Nat.succ.injEq] at hlen
      simp only [dispatchRoundStop, popLoopStop_eq]
      by_cases hs : k < w.toNat
      · simp only [decide_eq_true_eq, hs, if_true]
        exact List.Forall₂.cons (List.drop_suffix _ _)
          ((List.forall₂_same).2 (fun x _ => List.suffix_refl x))
      · simp only [decide_eq_true_eq, hs, if_false]
        exact List.Forall₂.cons (List.drop_suffix _ _) (ih (k - w.toNat) rest hlen)

theorem lifecycleInv_start {w : SchedulerCore} (h : lifecycleInv w) :
    lifecycleInv (Start w) := by
  rcases h with ⟨hd, h | h | h⟩ <;>
    simp [lifecycleInv, Start, h.1, hd, h.2.1, h.2.2.1, h.2.2.2]

theorem lifecycleInv_stop {w : SchedulerCore} (h : lifecycleInv w) :
    lifecycleInv (Stop w) := by
  rcases h with ⟨hd, h | h | h⟩ <;>
    simp [lifecycleInv, Stop, h.1, hd, h.2.1, h.2.2.1, h.2.2.2]

theorem lifecycleInv_run (acts : List LifecycleAction) (w : SchedulerCore)
    (h : lifecycleInv w) : lifecycleInv (runActions w acts) := by
  induction acts generalizing w with
  | nil => exact h
  | cons a acts ih =>
    cases a with
    | start => exact ih _ (lifecycleInv_start h)
    | stop => exact ih _ (lifecycleInv_stop h)

theorem status_ne_initial_run (acts : List LifecycleAction)
    (w : SchedulerCore) (h : w.status ≠ DaemonStatus.initial) :
    (runActions w acts).status ≠ DaemonStatus.initial := by
  induction acts generalizing w with
  | nil => exact h
  | cons a acts ih =>
    cases a with
    | start =>
      refine ih _ ?_
      simp only [Start]
      split
      · simp
      · exact h
    | stop =>
      refine ih _ ?_
      simp only [Stop]
      split
      · simp
      · exact h

theorem run_without_start (acts : List LifecycleAction) (w : SchedulerCore)
    (h : w.status = DaemonStatus.initial)
    (hno : LifecycleAction.start ∉ acts) : runActions w acts = w := by
  induction acts with
  | nil => rfl
  | cons a acts ih =>
    cases a with
    | start => simp at hno
    | stop =>
      simp only [List.mem_cons] at hno
      push_neg at hno
      have hstop : Stop w = w := by
        simp [Stop, h]
      rw [runActions, hstop, ih hno.2]

theorem start_mem_run (acts : List LifecycleAction) (w : SchedulerCore)
    (h : w.status = DaemonStatus.initial)
    (hmem : LifecycleAction.start ∈ acts) :
    (runActions w acts).status ≠ DaemonStatus.initial := by
  induction acts generalizing w with
  | nil => simp at hmem
  | cons a acts ih =>
    cases a with
    | start =>
      refine status_ne_initial_run acts (Start w) ?_
      simp [Start, h]
    | stop =>
      have hmem2 : LifecycleAction.start ∈ acts := by
        rcases List.mem_cons.1 hmem with h1 | h1
        · exact absurd h1 (by decide)
        · exact h1
      have hstop : Stop w = w := by simp [Stop, h]
      rw [runActions, hstop]
      exact ih w h hmem2

theorem runActions_append (l r : List LifecycleAction) (w : SchedulerCore) :
    runActions w (l ++ r) = runActions (runActions w l) r := by
  induction l generalizing w with
  | nil => rfl
  | cons a l ih =>
    cases a with
    | start => exact ih (Start w)
    | stop => exact ih (Stop w)

theorem status_stopped_run (acts : List LifecycleAction) (w : SchedulerCore)
    (h : w.status = DaemonStatus.stopped) :
    (runActions w acts).status = DaemonStatus.stopped := by
  induction acts generalizing w with
  | nil => exact h
  | cons a acts ih =>
    cases a with
    | start =>
      have hw : Start w = w := by simp [Start, h]
      rw [runActions, hw]
      exact ih w h
    | stop =>
      have hw : Stop w = w := by simp [Stop, h]
      rw [runActions, hw]
      exact ih w h

theorem submit_notify_le (c : Bool) (w : SchedulerCore) (p : Int) (t : Nat)
    (h : w.notify ≤ 1) : (Submit c w p t).2.notify ≤ 1 := by
  unfold Submit
  split_ifs <;> simp <;> omega

theorem submit_ok_notify (c : Bool) (w : SchedulerCore) (p : Int) (t : Nat)
    (hok : (Submit c w p t).1 = SubmitResult.ok) (h : w.notify ≤ 1) :
    (Submit c w p t).2.notify = 1 := by
  unfold Submit at hok ⊢
  split_ifs at hok ⊢ <;> simp_all <;> omega

theorem submit_not_ok_state (c : Bool) (w : SchedulerCore) (p : Int)
    (t : Nat) (hok : (Submit c w p t).1 ≠ SubmitResult.ok) :
    (Submit c w p t).2 = w := by
  unfold Submit at hok ⊢
  split_ifs at hok ⊢ <;> simp_all

theorem submitMany_notify (subs : List (Bool × Int × Nat))
    (w : SchedulerCore) (h : w.notify ≤ 1)
    (hall : (submitMany w subs).2 = true) (hne : subs ≠ []) :
    (submitMany w subs).1.notify = 1 := by
  induction subs generalizing w with
  | nil => simp at hne
  | cons s subs ih =>
    obtain ⟨c, p, t⟩ := s
    simp only [submitMany, Bool.and_eq_true, decide_eq_true_eq] at hall
    obtain ⟨hok, hrest⟩ := hall
    have h1 : (Submit c w p t).2.notify = 1 := submit_ok_notify c w p t hok h
    match subs with
    | [] => simpa [submitMany] using h1
    | s2 :: subs2 =>
      simp only [submitMany]
      exact ih _ (by omega) (by simpa [submitMany] using hrest) (by simp)

theorem flatMap_evFor_true (l : List Nat) :
    l.flatMap (evFor (fun _ => true)) = l.map (fun t => Event.submit t true) := by
  induction l with
  | nil => rfl
  | cons t rest ih => simp [evFor, ih]

/-! ### Claims -/

/-- Claim C1: with a processor that accepts every task and no shutdown,
one dispatcher round visits the priority classes in ascending order and
removes from each class i exactly min(W[i], initial length of queue i)
tasks, the oldest first, forwarding each to the processor in that order
and leaving the remainder queued; an empty class contributes nothing and
its unused slots dequeue nothing from any other class. -/
theorem wrr_round_weighted_proportionality (W : List Int)
    (qs : List (List Nat)) (hlen : W.length = qs.length) :
    (dispatchRound (fun _ => true) W qs).1 =
      (List.zipWith (fun (w : Int) q =>
        (q.take (min w.toNat q.length)).map (fun t => Event.submit t true))
        W qs).flatten ∧
    (dispatchRound (fun _ => true) W qs).2 =
      List.zipWith (fun (w : Int) q => q.drop (min w.toNat q.length)) W qs := by
  induction W generalizing qs with
  | nil =>
    match qs with
    | [] => exact ⟨rfl, rfl⟩
    | q :: rest => simp at hlen
  | cons w ws ih =>
    match qs with
    | [] => simp at hlen
    | q :: rest =>
      simp only [List.length_cons, Nat.succ.injEq] at hlen
      obtain ⟨ih1, ih2⟩ := ih rest hlen
      constructor
      · simp [dispatchRound, popLoop_eq, flatMap_evFor_true, take_min_length,
          ih1, List.zipWith_cons_cons, List.flatten_cons]
      · simp [dispatchRound, popLoop_eq, drop_min_length, ih2,
          List.zipWith_cons_cons]

/-- Witness for C1: the spec example with weights [3, 2, 1] and three
queues of five tasks each. -/
theorem wrr_round_weighted_proportionality_witness :
    ([3, 2, 1] : List Int).length =
      ([[0, 1, 2, 3, 4], [5, 6, 7, 8, 9], [10, 11, 12, 13, 14]] :
        List (List Nat)).length ∧
    ((dispatchRound (fun _ => true) [3, 2, 1]
        [[0, 1, 2, 3, 4], [5, 6, 7, 8, 9], [10, 11, 12, 13, 14]]).1 =
      (List.zipWith (fun (w : Int) q =>
        (q.take (min w.toNat q.length)).map (fun t => Event.submit t true))
        [3, 2, 1]
        [[0, 1, 2, 3, 4], [5, 6, 7, 8, 9], [10, 11, 12, 13, 14]]).flatten ∧
    (dispatchRound (fun _ => true) [3, 2, 1]
        [[0, 1, 2, 3, 4], [5, 6, 7, 8, 9], [10, 11, 12, 13, 14]]).2 =
      List.zipWith (fun (w : Int) q => q.drop (min w.toNat q.length))
        [3, 2, 1]
        [[0, 1, 2, 3, 4], [5, 6, 7, 8, 9], [10, 11, 12, 13, 14]]) :=
  ⟨by decide, wrr_round_weighted_proportionality _ _ (by decide)⟩

/-- Claim C2 counterexample: priority -1 lies outside [0, numQueues) of a
started two-queue scheduler, yet Submit does not fail with
InvalidPriority (the upper-bound check passes and the queue index faults
instead), whichever way the select would resolve. -/
theorem submit_invalid_priority_cx :
    ((-1 : Int) < 0 ∨ (coreStarted.numQueues : Int) ≤ -1) ∧
    (Submit true coreStarted (-1) 7).1 ≠ SubmitResult.invalidPriority ∧
    (Submit false coreStarted (-1) 7).1 ≠ SubmitResult.invalidPriority := by
  decide

/-- Claim C2 (amended): for every task whose priority is at least
numQueues, Submit fails with InvalidPriority, performs no enqueue and
changes no queue (the whole state is returned unchanged).  The lower
bound is not validated: a negative priority is not rejected with
InvalidPriority (see the counterexample). -/
theorem submit_priority_upper_bound (c : Bool) (w : SchedulerCore)
    (p : Int) (t : Nat) (h : (w.numQueues : Int) ≤ p) :
    Submit c w p t = (SubmitResult.invalidPriority, w) := by
  simp [Submit, h]

/-- Witness for the amended C2 at priority 2 on the two-queue
scheduler. -/
theorem submit_priority_upper_bound_witness :
    ((coreStarted.numQueues : Int) ≤ 2) ∧
    Submit true coreStarted 2 7 = (SubmitResult.invalidPriority, coreStarted) :=
  ⟨by decide, submit_priority_upper_bound true coreStarted 2 7 (by decide)⟩

/-- Claim C3: Submit validates only the upper bound of the priority.
Whenever the upper-bound validation passes and the priority is negative —
for instance priority -1 — Submit reaches the queue-slice access at a
negative, out-of-bounds index; with a nonnegative priority the access
never faults, so the access is in bounds exactly under the precondition
that the priority is nonnegative. -/
theorem submit_negative_priority_unchecked :
    (∀ (c : Bool) (w : SchedulerCore) (p : Int) (t : Nat),
      p < (w.numQueues : Int) → p < 0 →
        Submit c w p t = (SubmitResult.indexOutOfRange, w)) ∧
    (∀ (c : Bool) (w : SchedulerCore) (p : Int) (t : Nat),
      0 ≤ p → (Submit c w p t).1 ≠ SubmitResult.indexOutOfRange) := by
  constructor
  · intro c w p t h1 h2
    simp [Submit, h2, not_le.2 h1]
  · intro c w p t h
    unfold Submit
    split_ifs <;> simp_all <;> omega

/-- Witness for C3 at priority -1 (faults) and priority 0 (does not). -/
theorem submit_negative_priority_unchecked_witness :
    ((-1 : Int) < (coreStarted.numQueues : Int) ∧ (-1 : Int) < 0 ∧
      Submit true coreStarted (-1) 7 =
        (SubmitResult.indexOutOfRange, coreStarted)) ∧
    ((0 : Int) ≤ 0 ∧
      (Submit true coreStarted 0 7).1 ≠ SubmitResult.indexOutOfRange) :=
  ⟨⟨by decide, by decide,
      submit_negative_priority_unchecked.1 true coreStarted (-1) 7
        (by decide) (by decide)⟩,
    ⟨by decide,
      submit_negative_priority_unchecked.2 true coreStarted 0 7 (by decide)⟩⟩

/-- Claim C8: a dispatcher round that keeps making the remaining no-op
pop attempts after finding a priority queue empty is observationally
equal — same events in the same order, same final queues — to the round
that short-circuits to the next priority on the first empty result, for
every processor and every backlog shape. -/
theorem empty_queue_short_circuit_equiv (proc : Nat → Bool)
    (ws : List Int) (qs : List (List Nat)) :
    dispatchRoundShort proc ws qs = dispatchRound proc ws qs := by
  induction ws generalizing qs with
  | nil => rfl
  | cons w ws ih =>
    match qs with
    | [] => rfl
    | q :: rest =>
      simp [dispatchRoundShort, dispatchRound, popShort_eq_popLoop, ih]

/-- Claim C4 counterexample: after a completed Start-then-Stop (shutdown
fired), a Submit whose select resolves in favor of the free queue slot
succeeds and enqueues the task instead of failing with SchedulerClosed:
both cases of the select are ready and Go chooses among ready cases at
random, so failure is not guaranteed. -/
theorem submit_after_stop_cx :
    (NewWeightedRoundRobinTaskScheduler ⟨[1], 1, 1⟩ =
        NewSchedulerResult.ok coreInit ∧
      runActions coreInit [LifecycleAction.start, LifecycleAction.stop] =
        coreStopped) ∧
    coreStopped.shutdown = true ∧
    (Submit true coreStopped 0 5).1 = SubmitResult.ok ∧
    (Submit true coreStopped 0 5).2.taskChs = [[5]] :=
  ⟨⟨rfl, by decide⟩, by decide, by decide, by decide⟩

/-- Claim C4 (amended): after the shutdown signal has fired, Submit with
an in-range priority never blocks; when the target queue is full it
always fails with SchedulerClosed and changes nothing; when the queue has
free capacity the select decides: either it fails with SchedulerClosed
and the task is not enqueued, or (only when the select favors the send)
it succeeds and enqueues the task. -/
theorem submit_after_shutdown (c : Bool) (w : SchedulerCore) (p : Int)
    (t : Nat) (hsd : w.shutdown = true) (h0 : 0 ≤ p)
    (h1 : p < (w.numQueues : Int)) :
    (Submit c w p t).1 ≠ SubmitResult.blocked ∧
    (¬ (((w.taskChs.getD p.toNat []).length : Int) < w.queueSize) →
      Submit c w p t = (SubmitResult.closed, w)) ∧
    (Submit c w p t = (SubmitResult.closed, w) ∨
      ((((w.taskChs.getD p.toNat []).length : Int) < w.queueSize) ∧ c = true ∧
        (Submit c w p t).1 = SubmitResult.ok ∧
        (Submit c w p t).2.taskChs =
          w.taskChs.set p.toNat ((w.taskChs.getD p.toNat []) ++ [t]))) := by
  unfold Submit
  rw [if_neg (not_le.2 h1), if_neg (not_lt.2 h0)]
  by_cases hcap : ((w.taskChs.getD p.toNat []).length : Int) < w.queueSize
  · cases c with
    | true =>
      rw [if_pos ⟨hcap, Or.inr rfl⟩]
      exact ⟨by simp, fun hq => absurd hcap hq, Or.inr ⟨hcap, rfl, rfl, rfl⟩⟩
    | false =>
      rw [if_neg (fun hand => by simp [hsd] at hand), if_pos hsd]
      exact ⟨by simp, fun _ => rfl, Or.inl rfl⟩
  · rw [if_neg (fun hand => hcap hand.1), if_pos hsd]
    exact ⟨by simp, fun _ => rfl, Or.inl rfl⟩

/-- Witness for the amended C4: a select that favors the shutdown case
on the stopped one-queue scheduler. -/
theorem submit_after_shutdown_witness :
    coreStopped.shutdown = true ∧ (0 : Int) ≤ 0 ∧
    (0 : Int) < (coreStopped.numQueues : Int) ∧
    ((Submit false coreStopped 0 5).1 ≠ SubmitResult.blocked ∧
    (¬ (((coreStopped.taskChs.getD (0 : Int).toNat []).length : Int) <
        coreStopped.queueSize) →
      Submit false coreStopped 0 5 = (SubmitResult.closed, coreStopped)) ∧
    (Submit false coreStopped 0 5 = (SubmitResult.closed, coreStopped) ∨
      ((((coreStopped.taskChs.getD (0 : Int).toNat []).length : Int) <
          coreStopped.queueSize) ∧ false = true ∧
        (Submit false coreStopped 0 5).1 = SubmitResult.ok ∧
        (Submit false coreStopped 0 5).2.taskChs =
          coreStopped.taskChs.set (0 : Int).toNat
            ((coreStopped.taskChs.getD (0 : Int).toNat []) ++ [5])))) :=
  ⟨by decide, by decide, by decide,
    submit_after_shutdown false coreStopped 0 5 (by decide) (by decide)
      (by decide)⟩

/-- Claim C5: from any constructed scheduler, the status moves only along
Initialized, Started, Stopped: every Start/Stop call sequence starts the
processor and spawns the dispatcher at most once — exactly once as soon
as the sequence contains a Start — stops the processor and fires shutdown
at most once, and exactly once as soon as the sequence contains a Stop
that comes after a Start (the shutdown flag is set exactly when the one
stop happened); a sequence with no Start changes nothing, single calls
never move the status backwards, and a Start (resp. Stop) that does not
find the status Initialized (resp. Started) is a no-op returning without
error. -/
theorem lifecycle_idempotent :
    (∀ (opts : WeightedRoundRobinTaskSchedulerOptions) (s : SchedulerCore),
      NewWeightedRoundRobinTaskScheduler opts = NewSchedulerResult.ok s →
      ∀ acts : List LifecycleAction,
        (runActions s acts).procStarts ≤ 1 ∧
        (runActions s acts).dispatcherSpawns = (runActions s acts).procStarts ∧
        (runActions s acts).procStops ≤ 1 ∧
        ((runActions s acts).shutdown = true ↔
          (runActions s acts).procStops = 1) ∧
        (LifecycleAction.start ∈ acts → (runActions s acts).procStarts = 1) ∧
        (∀ l r, acts = l ++ LifecycleAction.stop :: r →
          LifecycleAction.start ∈ l →
          (runActions s acts).procStops = 1 ∧
          (runActions s acts).shutdown = true) ∧
        (LifecycleAction.start ∉ acts → runActions s acts = s)) ∧
    (∀ w : SchedulerCore, statusRank w.status ≤ statusRank (Start w).status ∧
      statusRank w.status ≤ statusRank (Stop w).status) ∧
    (∀ w : SchedulerCore, w.status ≠ DaemonStatus.initial → Start w = w) ∧
    (∀ w : SchedulerCore, w.status ≠ DaemonStatus.started → Stop w = w) := by
  refine ⟨?_, ?_, ?_, ?_⟩
  · intro opts s hok acts
    have hs : s.status = DaemonStatus.initial ∧ s.procStarts = 0 ∧
        s.procStops = 0 ∧ s.shutdown = false ∧ s.dispatcherSpawns = 0 := by
      unfold NewWeightedRoundRobinTaskScheduler at hok
      split_ifs at hok
      injection hok with hok
      subst hok
      exact ⟨rfl, rfl, rfl, rfl, rfl⟩
    have hinv0 : lifecycleInv s :=
      ⟨by rw [hs.2.2.2.2, hs.2.1],
        Or.inl ⟨hs.1, hs.2.1, hs.2.2.1, hs.2.2.2.1⟩⟩
    obtain ⟨hd, hcase⟩ := lifecycleInv_run acts s hinv0
    refine ⟨?_, hd, ?_, ?_, ?_, ?_, run_without_start acts s hs.1⟩
    · rcases hcase with h | h | h <;> obtain ⟨_, h1, _, _⟩ := h <;> omega
    · rcases hcase with h | h | h <;> obtain ⟨_, _, h2, _⟩ := h <;> omega
    · rcases hcase with h | h | h <;> obtain ⟨_, _, h2, h3⟩ := h <;>
        simp [h2, h3]
    · intro hmem
      have hne := start_mem_run acts s hs.1 hmem
      rcases hcase with h | h | h
      · exact absurd h.1 hne
      · exact h.2.1
      · exact h.2.1
    · intro l r hacts hl
      have hsplit : runActions s acts =
          runActions (Stop (runActions s l)) r := by
        rw [hacts, runActions_append]
        rfl
      have hinvl := lifecycleInv_run l s hinv0
      have hnei : (runActions s l).status ≠ DaemonStatus.initial :=
        start_mem_run l s hs.1 hl
      have hstopped : (Stop (runActions s l)).status = DaemonStatus.stopped := by
        rcases hinvl.2 with h | h | h
        · exact absurd h.1 hnei
        · simp [Stop, h.1]
        · simp [Stop, h.1]
      have hfinal : (runActions (Stop (runActions s l)) r).status =
          DaemonStatus.stopped := status_stopped_run r _ hstopped
      have hinvf : lifecycleInv (runActions (Stop (runActions s l)) r) :=
        lifecycleInv_run r _ (lifecycleInv_stop hinvl)
      rcases hinvf.2 with h | h | h
      · rw [h.1] at hfinal
        exact absurd hfinal (by decide)
      · rw [h.1] at hfinal
        exact absurd hfinal (by decide)
      · rw [hsplit]
        exact ⟨h.2.2.1, h.2.2.2⟩
  · intro w
    cases hw : w.status <;> simp [Start, Stop, statusRank, hw]
  · intro w hw
    simp [Start, hw]
  · intro w hw
    simp [Stop, hw]

/-- Witness for C5: two Start and two Stop calls on the constructed
one-queue scheduler start the processor exactly once, and — since the
first Stop follows a Start — stop the processor exactly once, firing the
shutdown signal. -/
theorem lifecycle_idempotent_witness :
    NewWeightedRoundRobinTaskScheduler ⟨[1], 1, 1⟩ =
      NewSchedulerResult.ok coreInit ∧
    LifecycleAction.start ∈
      [LifecycleAction.start, LifecycleAction.start,
        LifecycleAction.stop, LifecycleAction.stop] ∧
    ([LifecycleAction.start, LifecycleAction.start,
        LifecycleAction.stop, LifecycleAction.stop] =
      [LifecycleAction.start, LifecycleAction.start] ++
        LifecycleAction.stop :: [LifecycleAction.stop] ∧
      LifecycleAction.start ∈
        [LifecycleAction.start, LifecycleAction.start]) ∧
    (runActions coreInit
      [LifecycleAction.start, LifecycleAction.start,
        LifecycleAction.stop, LifecycleAction.stop]).procStarts = 1 ∧
    ((runActions coreInit
      [LifecycleAction.start, LifecycleAction.start,
        LifecycleAction.stop, LifecycleAction.stop]).procStops = 1 ∧
    (runActions coreInit
      [LifecycleAction.start, LifecycleAction.start,
        LifecycleAction.stop, LifecycleAction.stop]).shutdown = true) :=
  ⟨rfl, by decide, ⟨by decide, by decide⟩,
    ((lifecycle_idempotent.1 ⟨[1], 1, 1⟩ coreInit rfl
      [LifecycleAction.start, LifecycleAction.start,
        LifecycleAction.stop, LifecycleAction.stop]).2.2.2.2.1 (by decide)),
    ((lifecycle_idempotent.1 ⟨[1], 1, 1⟩ coreInit rfl
      [LifecycleAction.start, LifecycleAction.start,
        LifecycleAction.stop, LifecycleAction.stop]).2.2.2.2.2.1
      [LifecycleAction.start, LifecycleAction.start] [LifecycleAction.stop]
      (by decide) (by decide))⟩

/-- Claim C6: whatever verdicts the processor returns, each task the round
dequeues is forwarded to the processor exactly once; its Nack is invoked
exactly once when the processor rejects it and never when it accepts; the
final queues do not depend on the verdicts (the round continues past
failures through the remaining attempts and priorities), and iterating
rounds under an always-failing processor advances the queues exactly as
under an always-accepting one (the loop keeps processing subsequent
rounds). -/
theorem processor_rejection_nack_once (proc : Nat → Bool) (W : List Int)
    (qs : List (List Nat)) (hnd : qs.flatten.Nodup) :
    (∀ t, t ∈ dispatchedTasks W qs →
      (dispatchRound proc W qs).1.count (Event.submit t (proc t)) = 1) ∧
    (∀ t, t ∈ dispatchedTasks W qs → proc t = false →
      (dispatchRound proc W qs).1.count (Event.nack t) = 1) ∧
    (∀ t, proc t = true →
      (dispatchRound proc W qs).1.count (Event.nack t) = 0) ∧
    (∀ t, t ∉ dispatchedTasks W qs →
      (dispatchRound proc W qs).1.count (Event.nack t) = 0) ∧
    ((dispatchRound proc W qs).2 = (dispatchRound (fun _ => true) W qs).2) ∧
    (∀ k, (dispatchRounds proc W k qs).2 =
      (dispatchRounds (fun _ => true) W k qs).2) := by
  have hndd : (dispatchedTasks W qs).Nodup :=
    hnd.sublist (dispatchedTasks_sublist W qs)
  refine ⟨?_, ?_, ?_, ?_, dispatchRound_snd_indep proc W qs,
    fun k => dispatchRounds_snd_indep proc W k qs⟩
  · intro t ht
    rw [dispatchRound_fst, count_submit_flatMap]
    simp [List.count_eq_one_of_mem hndd ht]
  · intro t ht hf
    rw [dispatchRound_fst, count_nack_flatMap, hf]
    simp [List.count_eq_one_of_mem hndd ht]
  · intro t ht
    rw [dispatchRound_fst, count_nack_flatMap, ht]
    simp
  · intro t ht
    rw [dispatchRound_fst, count_nack_flatMap]
    simp [List.count_eq_zero.2 ht]

/-- Witness for C6: an always-failing processor on two queues. -/
theorem processor_rejection_nack_once_witness :
    ([[1, 2], [3]] : List (List Nat)).flatten.Nodup ∧
    ((∀ t, t ∈ dispatchedTasks [2, 1] [[1, 2], [3]] →
      (dispatchRound (fun _ => false) [2, 1] [[1, 2], [3]]).1.count
        (Event.submit t ((fun _ => false) t)) = 1) ∧
    (∀ t, t ∈ dispatchedTasks [2, 1] [[1, 2], [3]] →
        (fun _ => false) t = false →
      (dispatchRound (fun _ => false) [2, 1] [[1, 2], [3]]).1.count
        (Event.nack t) = 1) ∧
    (∀ t, (fun _ => false) t = true →
      (dispatchRound (fun _ => false) [2, 1] [[1, 2], [3]]).1.count
        (Event.nack t) = 0) ∧
    (∀ t, t ∉ dispatchedTasks [2, 1] [[1, 2], [3]] →
      (dispatchRound (fun _ => false) [2, 1] [[1, 2], [3]]).1.count
        (Event.nack t) = 0) ∧
    ((dispatchRound (fun _ => false) [2, 1] [[1, 2], [3]]).2 =
      (dispatchRound (fun _ => true) [2, 1] [[1, 2], [3]]).2) ∧
    (∀ k, (dispatchRounds (fun _ => false) [2, 1] k [[1, 2], [3]]).2 =
      (dispatchRounds (fun _ => true) [2, 1] k [[1, 2], [3]]).2)) :=
  ⟨by decide,
    processor_rejection_nack_once (fun _ => false) [2, 1] [[1, 2], [3]]
      (by decide)⟩

/-- Claim C7 counterexample: options violating the stated constraints —
weight 0 (not > 0) with QueueSize 0 (not > 0), and a negative weight —
are accepted by construction instead of failing with a
ConstructionError. -/
theorem construction_no_validation_cx :
    (NewWeightedRoundRobinTaskScheduler ⟨[0], 0, 0⟩).isOk = true ∧
    (NewWeightedRoundRobinTaskScheduler ⟨[-1], 5, 0⟩).isOk = true := by
  decide

/-- Claim C7 (amended): construction fails with the construction error
exactly when Weights is empty; with nonempty Weights and a negative
QueueSize it neither succeeds nor returns a ConstructionError — the
queue-making `make(chan PriorityTask, QueueSize)` faults at run time;
any other options are accepted (positivity of the weights and of
QueueSize is not validated), and then numQueues equals the number of
weights and one initially empty queue of capacity QueueSize is made per
priority class. -/
theorem construction_checks_only_nonempty_weights
    (opts : WeightedRoundRobinTaskSchedulerOptions) :
    (NewWeightedRoundRobinTaskScheduler opts =
        NewSchedulerResult.constructionError constructionErrMsg ↔
      opts.Weights = []) ∧
    (NewWeightedRoundRobinTaskScheduler opts =
        NewSchedulerResult.makeChanFault ↔
      (opts.Weights ≠ [] ∧ opts.QueueSize < 0)) ∧
    (∀ s, NewWeightedRoundRobinTaskScheduler opts =
        NewSchedulerResult.ok s →
      s.numQueues = opts.Weights.length ∧ s.queueSize = opts.QueueSize ∧
      s.taskChs = List.replicate opts.Weights.length [] ∧
      s.status = DaemonStatus.initial ∧ s.weights = opts.Weights) := by
  refine ⟨?_, ?_, ?_⟩
  · unfold NewWeightedRoundRobinTaskScheduler
    split_ifs <;> simp_all [← List.length_eq_zero]
  · unfold NewWeightedRoundRobinTaskScheduler
    split_ifs <;> simp_all [← List.length_eq_zero]
  · intro s hok
    unfold NewWeightedRoundRobinTaskScheduler at hok
    split_ifs at hok
    injection hok with hok
    subst hok
    exact ⟨rfl, rfl, rfl, rfl, rfl⟩

/-- Witness for the amended C7: the options with one weight are accepted,
and options with a negative QueueSize reach the queue-making fault. -/
theorem construction_checks_only_nonempty_weights_witness :
    (NewWeightedRoundRobinTaskScheduler ⟨[1], 1, 1⟩ =
        NewSchedulerResult.ok coreInit) ∧
    (([1] : List Int) ≠ [] ∧ (-5 : Int) < 0) ∧
    (NewWeightedRoundRobinTaskScheduler ⟨[1], -5, 1⟩ =
        NewSchedulerResult.makeChanFault) ∧
    (coreInit.numQueues = ([1] : List Int).length ∧
      coreInit.queueSize = (1 : Int) ∧
      coreInit.taskChs = List.replicate ([1] : List Int).length [] ∧
      coreInit.status = DaemonStatus.initial ∧ coreInit.weights = [1]) :=
  ⟨rfl, by decide,
    (construction_checks_only_nonempty_weights ⟨[1], -5, 1⟩).2.1.2
      ⟨by decide, by decide⟩,
    (construction_checks_only_nonempty_weights ⟨[1], 1, 1⟩).2.2 coreInit rfl⟩

/-- Claim C9: the notification channel holds at most one pending
notification, an invariant every Submit preserves; a successful Submit
(which posts through a select with a default branch, hence without
blocking) leaves exactly one notification pending, a failed Submit posts
nothing, and any nonempty sequence of successful Submits between
dispatcher wake-ups coalesces to exactly one pending notification. -/
theorem notification_coalescing :
    (∀ (c : Bool) (w : SchedulerCore) (p : Int) (t : Nat), w.notify ≤ 1 →
      (Submit c w p t).2.notify ≤ 1) ∧
    (∀ (c : Bool) (w : SchedulerCore) (p : Int) (t : Nat),
      (Submit c w p t).1 = SubmitResult.ok → w.notify ≤ 1 →
      (Submit c w p t).2.notify = 1) ∧
    (∀ (c : Bool) (w : SchedulerCore) (p : Int) (t : Nat),
      (Submit c w p t).1 ≠ SubmitResult.ok →
      (Submit c w p t).2.notify = w.notify) ∧
    (∀ (subs : List (Bool × Int × Nat)) (w : SchedulerCore), w.notify ≤ 1 →
      (submitMany w subs).2 = true → subs ≠ [] →
      (submitMany w subs).1.notify = 1) :=
  ⟨submit_notify_le, submit_ok_notify,
    fun c w p t h => by rw [submit_not_ok_state c w p t h],
    submitMany_notify⟩

/-- Witness for C9: one successful Submit and a run of two successful
Submits on the started two-queue scheduler. -/
theorem notification_coalescing_witness :
    coreStarted.notify ≤ 1 ∧
    (Submit true coreStarted 0 7).2.notify ≤ 1 ∧
    ((Submit true coreStarted 0 7).1 = SubmitResult.ok ∧
      (Submit true coreStarted 0 7).2.notify = 1) ∧
    ((submitMany coreStarted [(true, 0, 7), (true, 1, 8)]).2 = true ∧
      ([(true, (0 : Int), (7 : Nat)), (true, 1, 8)] ≠ []) ∧
      (submitMany coreStarted [(true, 0, 7), (true, 1, 8)]).1.notify = 1) :=
  ⟨by decide, notification_coalescing.1 true coreStarted 0 7 (by decide),
    ⟨by decide,
      notification_coalescing.2.1 true coreStarted 0 7 (by decide) (by decide)⟩,
    ⟨by decide, by decide,
      notification_coalescing.2.2.2 [(true, 0, 7), (true, 1, 8)] coreStarted
        (by decide) (by decide) (by decide)⟩⟩

/-- Claim C10: when the shutdown signal fires and the dispatcher returns
mid-round at pop attempt number k (k = 0 also stands for a return at the
idle wait), every task still enqueued at that moment stays in its queue —
each final queue is a suffix of the initial one, in FIFO order — and is
neither forwarded to the processor nor Nacked: no event of the truncated
round mentions it. -/
theorem shutdown_drops_queued_silently (proc : Nat → Bool) (k : Nat)
    (W : List Int) (qs : List (List Nat)) (hlen : W.length = qs.length)
    (hnd : qs.flatten.Nodup) :
    List.Forall₂ (fun q q1 : List Nat => q1.IsSuffix q) qs
      (dispatchRoundStop proc k W qs).1.2 ∧
    (∀ t, t ∈ ((dispatchRoundStop proc k W qs).1.2).flatten →
      (∀ b, ((dispatchRoundStop proc k W qs).1.1).count (Event.submit t b) = 0) ∧
      ((dispatchRoundStop proc k W qs).1.1).count (Event.nack t) = 0) := by
  refine ⟨dispatchRoundStop_suffix proc W k qs hlen, ?_⟩
  obtain ⟨ds, hds, hperm⟩ := dispatchRoundStop_trace proc W k qs
  have hnd2 : (ds ++ ((dispatchRoundStop proc k W qs).1.2).flatten).Nodup :=
    hperm.nodup hnd
  have hdisj := (List.nodup_append.1 hnd2).2.2
  intro t ht
  have htds : t ∉ ds := fun hts => hdisj hts ht
  constructor
  · intro b
    rw [hds, count_submit_flatMap]
    simp [List.count_eq_zero.2 htds]
  · rw [hds, count_nack_flatMap]
    simp [List.count_eq_zero.2 htds]

/-- Witness for C10: the shutdown case is selected at the second pop
attempt of a two-queue round. -/
theorem shutdown_drops_queued_silently_witness :
    ([2, 1] : List Int).length = ([[1, 2], [3]] : List (List Nat)).length ∧
    ([[1, 2], [3]] : List (List Nat)).flatten.Nodup ∧
    (List.Forall₂ (fun q q1 : List Nat => q1.IsSuffix q) [[1, 2], [3]]
        (dispatchRoundStop (fun _ => true) 1 [2, 1] [[1, 2], [3]]).1.2 ∧
      (∀ t,
        t ∈ ((dispatchRoundStop (fun _ => true) 1 [2, 1] [[1, 2], [3]]).1.2).flatten →
        (∀ b, ((dispatchRoundStop (fun _ => true) 1 [2, 1] [[1, 2], [3]]).1.1).count
            (Event.submit t b) = 0) ∧
        ((dispatchRoundStop (fun _ => true) 1 [2, 1] [[1, 2], [3]]).1.1).count
            (Event.nack t) = 0)) :=
  ⟨by decide, by decide,
    shutdown_drops_queued_silently (fun _ => true) 1 [2, 1] [[1, 2], [3]]
      (by decide) (by decide)⟩

end WRR
